import Mathlib

/-!
Shallow embedding of the clip-request bot in `src/main.py`.

Python floats are modelled as exact rationals (`ℚ`).  All values the
program manipulates are produced by `round(x, 1)`, i.e. lie on the
one-decimal grid, where binary doubles and exact decimals agree after
rounding; IEEE specials (`inf`, `nan`, signed zero) and locale digits
are outside the model.  Strings are handled through their character
lists; `str.split()` is modelled on the ASCII whitespace set.
-/

namespace Main

/-- ASCII decimal digit test (the digits accepted by `int()` / `float()`). -/
def isDigitC (c : Char) : Bool := decide (48 ≤ c.toNat ∧ c.toNat ≤ 57)

/-- Whitespace for Python `str.split()` (space, tab, LF, CR, FF, VT). -/
def isSpaceC (c : Char) : Bool :=
  decide (c.toNat = 32 ∨ c.toNat = 9 ∨ c.toNat = 10 ∨ c.toNat = 13 ∨ c.toNat = 12 ∨ c.toNat = 11)

/-- The character for a decimal digit value. -/
def digitChar (d : ℕ) : Char := Char.ofNat (48 + d)

/-- Digit-printing worker, structurally recursive on a fuel bound so
that it evaluates by kernel reduction. -/
def natCharsAux : ℕ → ℕ → List Char
  | 0, _ => []
  | fuel + 1, n =>
    if n < 10 then [digitChar n]
    else natCharsAux fuel (n / 10) ++ [digitChar (n % 10)]

/-- Decimal digits of a natural number, as Python `str` prints it. -/
def natChars (n : ℕ) : List Char := natCharsAux (n + 1) n

/-- Value of a digit string (left fold, most significant first). -/
def digitsVal (l : List Char) : ℕ :=
  l.foldl (fun acc c => acc * 10 + (c.toNat - 48)) 0

/-- Parse a nonempty all-digit character run. -/
def parseDigits (l : List Char) : Option ℕ :=
  if l ≠ [] ∧ l.all isDigitC then some (digitsVal l) else none

/-- Python `str` of an integer: optional minus sign, then digits. -/
def intChars (i : ℤ) : List Char :=
  if i < 0 then '-' :: natChars i.natAbs else natChars i.natAbs

/-- Python `int(s)` on a whitespace-trimmed token (ASCII digits, one sign). -/
def pyParseIntChars (l : List Char) : Option ℤ :=
  match l with
  | [] => none
  | c :: rest =>
    if c = '-' then (parseDigits rest).map (fun n => -(n : ℤ))
    else if c = '+' then (parseDigits rest).map (fun n => (n : ℤ))
    else (parseDigits (c :: rest)).map (fun n => (n : ℤ))

/-- Split a list at the first character satisfying `stop`; the stop
character, when present, starts the second component. -/
def breakAt (stop : Char → Bool) : List Char → List Char × List Char
  | [] => ([], [])
  | c :: cs =>
    if stop c then ([], c :: cs)
    else
      let p := breakAt stop cs
      (c :: p.1, p.2)

/-- Ten to an integer power, as a rational. -/
def qpow10 (e : ℤ) : ℚ :=
  if 0 ≤ e then (10 : ℚ) ^ e.toNat else ((10 : ℚ) ^ (-e).toNat)⁻¹

/-- The mantissa part of a Python float literal: `digits`, `digits.`,
`.digits` or `digits.digits`. -/
def parseMantissaChars (l : List Char) : Option ℚ :=
  let p := breakAt (fun c => c == '.') l
  match p.2 with
  | [] => (parseDigits p.1).map (fun n => (n : ℚ))
  | _ :: fp =>
    if (p.1.all isDigitC ∧ fp.all isDigitC) ∧ (p.1 ≠ [] ∨ fp ≠ []) then
      some ((digitsVal p.1 : ℚ) + (digitsVal fp : ℚ) / (10 : ℚ) ^ fp.length)
    else none

/-- Unsigned Python float literal: mantissa with optional `e`/`E` exponent. -/
def parseUnsignedFloatChars (l : List Char) : Option ℚ :=
  let p := breakAt (fun c => c == 'e' || c == 'E') l
  match p.2 with
  | [] => parseMantissaChars p.1
  | _ :: ex =>
    match parseMantissaChars p.1, pyParseIntChars ex with
    | some m, some e2 => some (m * qpow10 e2)
    | _, _ => none

/-- Python `float(s)` on a token (finite decimal literals; IEEE specials
and underscores are outside the rational model). -/
def pyParseFloatChars (l : List Char) : Option ℚ :=
  match l with
  | [] => none
  | c :: rest =>
    if c = '-' then (parseUnsignedFloatChars rest).map (fun q => -q)
    else if c = '+' then parseUnsignedFloatChars rest
    else parseUnsignedFloatChars (c :: rest)

/-- Cut a character list at every whitespace character (keeping empty runs). -/
def splitAll : List Char → List (List Char)
  | [] => [[]]
  | c :: cs =>
    if isSpaceC c then [] :: splitAll cs
    else
      match splitAll cs with
      | [] => [[c]]
      | t :: ts => (c :: t) :: ts

/-- Python `str.split()` with no arguments: whitespace runs separate
tokens, empty tokens are dropped. -/
def splitOnWs (l : List Char) : List (List Char) :=
  (splitAll l).filter (fun t => decide (t ≠ []))

/-- Join tokens with single spaces (the shape of the f-string
`f'{a} {b} ...'` in `make_inline_keyboard`). -/
def joinSp : List (List Char) → List Char
  | [] => []
  | [t] => t
  | t :: ts => t ++ ' ' :: joinSp ts

/-- Round half to even, to an integer (CPython's rounding of `round`). -/
def rhe (x : ℚ) : ℤ :=
  let n := ⌊x⌋
  let f := x - (n : ℚ)
  if f < 1 / 2 then n
  else if 1 / 2 < f then n + 1
  else if n % 2 = 0 then n else n + 1

/-- Python `round(x, 1)` on the exact rational value. -/
def round1 (x : ℚ) : ℚ := ((rhe (10 * x) : ℤ) : ℚ) / 10

/-- Characters of the one-decimal float `k/10` as Python `str` prints it
(always one digit after the dot, e.g. `12.0`, `-0.5`). -/
def tenthsChars (k : ℤ) : List Char :=
  (if k < 0 then ['-'] else []) ++ natChars (k.natAbs / 10) ++ '.' :: natChars (k.natAbs % 10)

/-- `str(round(x, 1))`: the field text the f-string embeds for floats. -/
def pyRound1Chars (x : ℚ) : List Char := tenthsChars (rhe (10 * x))

/-- The value object built by `parse.Request` and rebuilt in the
callback handler (`youtube_id`, `start`, `end`). -/
structure Request where
  youtube_id : String
  start : ℚ
  «end» : ℚ
deriving DecidableEq

/-- The seven whitespace-delimited fields of the callback payload,
after re-parsing the numeric ones (`main.py` line 289 and 297). -/
structure ControlState where
  user_id : ℤ
  youtube_id : String
  start : ℚ
  «end» : ℚ
  start_end_mode : String
  int_frac_mode : String
  action : String
deriving DecidableEq

/-- The `callback_data` f-string of `make_inline_keyboard`:
`f'{user_id} {youtube_id} {round(start, 1)} {round(end, 1)} {start_end_mode} {int_frac_mode} {action}'`. -/
def encodeCallbackData (user_id : ℤ) (request : Request)
    (start_end_mode int_frac_mode action : String) : String :=
  String.mk (joinSp [intChars user_id, request.youtube_id.data,
    pyRound1Chars request.start, pyRound1Chars request.«end»,
    start_end_mode.data, int_frac_mode.data, action.data])

/-- Decoding the split fields: unpack seven tokens, `int` the first and
`float` the two range fields; anything else raises `ValueError`
(modelled as `none`). -/
def decodeFields : List (List Char) → Option ControlState
  | [u, yd, sd, ed, md, gd, ad] =>
    match pyParseIntChars u, pyParseFloatChars sd, pyParseFloatChars ed with
    | some uid, some sq, some eq2 =>
      some ⟨uid, String.mk yd, sq, eq2, String.mk md, String.mk gd, String.mk ad⟩
    | _, _, _ => none
  | _ => none

/-- `callback_query.data.split()` followed by the unpack/re-parse of
`inline_kb_answer_callback_handler`. -/
def decode (data : String) : Option ControlState :=
  decodeFields (splitOnWs data.data)

/-- A keyboard button: callback button or URL button. -/
inductive Button where
  | cb (text : String) (callback_data : String)
  | url (text : String) (link : String)
deriving DecidableEq

/-- An inline keyboard: rows of buttons. -/
abbrev Markup := List (List Button)

/-- Whether a markup still offers any interactive callback button. -/
def hasCbButton (m : Markup) : Bool :=
  m.any (fun row => row.any (fun b => match b with | Button.cb _ _ => true | _ => false))

/-- Modelled from the spec: `request_to_start_timestamp_url` lives in
`parse.py`, which is not among the sources; per the spec it is a
deterministic URL keyed by the source identifier (and start offset). -/
def request_to_start_timestamp_url (r : Request) : String :=
  "https://youtu.be/" ++ r.youtube_id ++ "?t=" ++ String.mk (intChars ⌊r.start⌋)

/-- Modelled from the spec: `request_to_query` lives in `parse.py`,
which is not among the sources; it renders the request back into query
text (identifier followed by the range). -/
def request_to_query (r : Request) : String :=
  r.youtube_id ++ " " ++ String.mk (pyRound1Chars r.start) ++ " " ++
    String.mk (pyRound1Chars r.«end»)

/-- `make_inline_keyboard` from `main.py`.  Returns `none` when the
Python original would hit a `NameError` (a caption variable is only
assigned for the recognized mode strings). -/
def make_inline_keyboard (user_id : ℤ) (request : Request)
    (start_end_mode int_frac_mode : String) : Option Markup :=
  match (if start_end_mode = "start" then some "Начало 🖋 / Конец"
         else if start_end_mode = "end" then some "Начало / Конец 🖋 " else none),
        (if int_frac_mode = "int" then some "1 🖋 / 0.1"
         else if int_frac_mode = "frac" then some "1 / 0.1 🖋 " else none) with
  | some sec, some ifc =>
    let keyboard : List (List (String × String)) :=
      [[(sec, "sw_m"), (ifc, "sw_i")]]
      ++ (if int_frac_mode = "int" then
            [[("+1", "1"), ("+2", "2"), ("+5", "5"), ("+10", "10"), ("+30", "30")],
             [("-1", "-1"), ("-2", "-2"), ("-5", "-5"), ("-10", "-10"), ("-30", "-30")]]
          else if int_frac_mode = "frac" then
            [[("+0.1", "0.1"), ("+0.2", "0.2"), ("+0.5", "0.5")],
             [("-0.1", "-0.1"), ("-0.2", "-0.2"), ("-0.5", "-0.5")]]
          else [])
      ++ [[("Предпросмотр", "preview")], [("Видео", "video"), ("Аудио", "audio")]]
    some (keyboard.map (fun row => row.map (fun tp =>
      Button.cb tp.1 (encodeCallbackData user_id request start_end_mode int_frac_mode tp.2))))
  | _, _ => none

/-- The range-adjustment step of the callback handler (`main.py`
lines 380-389): apply the delta to the focused bound, clamp, round. -/
def adjust (request : Request) (start_end_mode : String) (delta : ℚ) : Request :=
  if start_end_mode = "end" then
    { request with «end» := round1 (max request.start (request.«end» + delta)) }
  else if start_end_mode = "start" then
    { request with start := round1 (min (max (request.start + delta) 0) request.«end») }
  else request

/-- The Python exceptions the orchestration code distinguishes. -/
inductive PyError where
  | ffRuntimeError (msg : String)
  | downloadError (msg : String)
  | otherYtdlError (msg : String)
  | otherError (msg : String)
deriving DecidableEq

/-- The classification of `download_file`'s `except (FFRuntimeError,
yt_dlp.utils.DownloadError)` clause: failures treated as
"this format is unusable". -/
def skippable : PyError → Bool
  | .ffRuntimeError _ => true
  | .downloadError _ => true
  | _ => false

/-- Membership in `yt_dlp.utils.YoutubeDLError` (as caught at
`main.py` line 319); `DownloadError` is a subclass, `FFRuntimeError` is not. -/
def isYoutubeDLError : PyError → Bool
  | .downloadError _ => true
  | .otherYtdlError _ => true
  | _ => false

/-- Python `str(e)` for the modelled exceptions. -/
def errStr : PyError → String
  | .ffRuntimeError m => m
  | .downloadError m => m
  | .otherYtdlError m => m
  | .otherError m => m

/-- Outcome of one candidate attempt (`get_file_url` + `download_clip`). -/
inductive AttemptOutcome where
  | success (file : String)
  | failure (e : PyError)
deriving DecidableEq

/-- Result of `download_file`: a returned file (Python would return
`None` if the format table were empty) or a propagated exception. -/
inductive DownloadResult where
  | ok (file : Option String)
  | raised (e : PyError)
deriving DecidableEq

/-- `FORMATS_BY_TYPE` from `main.py`. -/
def FORMATS_BY_TYPE (t : String) : List String :=
  if t = "preview" then ["best[height<720]"]
  else if t = "video" then ["best", "best[height<720]"]
  else if t = "audio" then ["bestaudio/best"]
  else []

/-- The `for i, format in enumerate(...)` loop of `download_file`: the
attempt body (resolve + clip) is abstracted by `oracle`; a failure in
the `except` class continues unless the candidate was the last, any
other failure propagates at once. -/
def download_file_loop (oracle : ℕ → AttemptOutcome) : ℕ → List String → DownloadResult
  | _, [] => .ok none
  | i, _f :: rest =>
    match oracle i with
    | .success b => .ok (some b)
    | .failure e =>
      if skippable e then
        match rest with
        | [] => .raised e
        | _ :: _ => download_file_loop oracle (i + 1) rest
      else .raised e

/-- `download_file` from `main.py`: try the configured formats in order. -/
def download_file (oracle : ℕ → AttemptOutcome) (type_ : String) : DownloadResult :=
  download_file_loop oracle 0 (FORMATS_BY_TYPE type_)

/-- A transport-side effect the callback handler performs. -/
inductive Effect where
  | answerText (text : String)
  | answerOk
  | editMessageCaption (reply_markup : Markup) (caption : String)
  | editMessageMedia (kind : String) (caption : String) (reply_markup : Option Markup)
  | editMessageReplyMarkup (reply_markup : Markup)
  | sendVideo (file : Option String)
  | sendAudio (file : Option String)
deriving DecidableEq

/-- The body of `inline_kb_answer_callback_handler` after the owner
check and the `Request(...)` reconstruction (`main.py` lines 299-398). -/
def handlerBody (request : Request) (start_end_mode int_frac_mode action : String)
    (from_user : ℤ) (oracle : ℕ → AttemptOutcome) : List Effect :=
  let url := request_to_start_timestamp_url request
  let pre : List Effect :=
    if action = "video" ∨ action = "audio" then
      [.editMessageCaption [[Button.url "Загружаем..." url]] url]
    else []
  if action = "video" ∨ action = "audio" ∨ action = "preview" then
    match download_file oracle action with
    | .raised e =>
      pre ++ (if isYoutubeDLError e then
                [.editMessageCaption [[Button.url "Error" url]] (url ++ "\n\n" ++ errStr e)]
              else [])
    | .ok b =>
      pre ++
      (if action = "video" then
        [.sendVideo b, .editMessageMedia "video" url none]
      else if action = "audio" then
        [.sendAudio b, .editMessageMedia "audio" url none]
      else
        .sendVideo b ::
          (match make_inline_keyboard from_user request start_end_mode int_frac_mode with
           | some kb => [.editMessageMedia "video" (request_to_query request) (some kb)]
           | none => []))
  else if action = "sw_m" then
    let sem2 := if start_end_mode = "start" then "end" else "start"
    match make_inline_keyboard from_user request sem2 int_frac_mode with
    | some kb => [.editMessageReplyMarkup kb]
    | none => []
  else if action = "sw_i" then
    let ifm2 := if int_frac_mode = "int" then "frac" else "int"
    match make_inline_keyboard from_user request start_end_mode ifm2 with
    | some kb => [.editMessageReplyMarkup kb]
    | none => []
  else
    match pyParseFloatChars action.data with
    | none => []
    | some delta =>
      let request2 := adjust request start_end_mode delta
      if request2.start = request.start ∧ request2.«end» = request.«end» then []
      else
        match make_inline_keyboard from_user request2 start_end_mode int_frac_mode with
        | some kb => [.editMessageCaption kb (request_to_query request2)]
        | none => []

/-- `inline_kb_answer_callback_handler` from `main.py`, as the list of
transport effects it performs; every exception is caught by the
handler's own blanket `except` (effects stop where Python raises). -/
def inline_kb_answer_callback_handler (from_user : ℤ) (data : String)
    (oracle : ℕ → AttemptOutcome) : List Effect :=
  match splitOnWs data.data with
  | [u, yd, sd, ed, md, gd, ad] =>
    match pyParseIntChars u with
    | none => []
    | some uid =>
      if from_user ≠ uid then [.answerText "You shall not press!"]
      else
        .answerOk ::
          (match pyParseFloatChars sd, pyParseFloatChars ed with
           | some sq, some eq2 =>
             handlerBody ⟨String.mk yd, sq, eq2⟩ (String.mk md) (String.mk gd)
               (String.mk ad) from_user oracle
           | _, _ => [])
  | _ => []

/-- `download_clip` from `main.py`, tracked against a file system
(list of existing paths).  The two `FFmpeg.run()` calls and the read of
the output are abstracted by the three success flags; a failing stage
raises (result `none`) at that point.  `t1`/`t2` stand for the two
`time()` stamps in the file names. -/
def download_clip (source_ext type_ t1 t2 : String) (contents : String)
    (run1Ok run2Ok readOk : Bool) (fs0 : List String) : Option String × List String :=
  match (if type_ = "video" then some "mp4"
         else if type_ = "audio" then some "mp3" else none) with
  | none => (none, fs0)
  | some ext =>
    let temp_file_path := t1 ++ ".temp." ++ source_ext
    let out_file_path := t2 ++ "." ++ ext
    if run1Ok = false then (none, fs0)
    else
      let fs1 := temp_file_path :: fs0
      if run2Ok = false then (none, fs1)
      else
        let fs2 := out_file_path :: fs1
        if readOk = false then (none, fs2)
        else (some contents, (fs2.erase temp_file_path).erase out_file_path)

/-- A parse attempt that succeeded with a value (did not raise, found a match). -/
def isSomeOk (r : Except String (Option Request)) : Bool :=
  match r with
  | .ok (some _) => true
  | _ => false

/-- A parse attempt that raised a validation error. -/
def isErrE (r : Except String (Option Request)) : Bool :=
  match r with
  | .error _ => true
  | _ => false

/-- Modelled from the spec: `first_some` lives in `parse.py`, which is
not among the sources.  Per the spec it evaluates an ordered list of
parse attempts and returns the first that succeeds without raising, or
re-raises the last validation error when every attempt fails
validation — as opposed to all attempts merely finding nothing. -/
def first_some (attempts : List (Except String (Option Request))) :
    Except String (Option Request) :=
  match attempts.find? isSomeOk with
  | some r => r
  | none =>
    if !attempts.isEmpty && attempts.all isErrE then
      match attempts.getLast? with
      | some r => r
      | none => .ok none
    else .ok none

/-! ### Lemmas: digit printing and parsing -/

theorem natCharsAux_congr (f1 : ℕ) : ∀ (f2 n : ℕ), n < f1 → n < f2 →
    natCharsAux f1 n = natCharsAux f2 n := by
  induction f1 with
  | zero => intro f2 n h1 _; omega
  | succ f1 ih =>
    intro f2 n h1 h2
    cases f2 with
    | zero => omega
    | succ f2 =>
      simp only [natCharsAux]
      by_cases h : n < 10
      · simp [h]
      · simp only [if_neg h]
        rw [ih f2 (n / 10) (by omega) (by omega)]

theorem natChars_eq (n : ℕ) :
    natChars n = if n < 10 then [digitChar n]
                 else natChars (n / 10) ++ [digitChar (n % 10)] := by
  by_cases h : n < 10
  · simp [natChars, natCharsAux, h]
  · rw [if_neg h]
    show natCharsAux (n + 1) n = natCharsAux (n / 10 + 1) (n / 10) ++ [digitChar (n % 10)]
    rw [natCharsAux, if_neg h, natCharsAux_congr n (n / 10 + 1) (n / 10) (by omega) (by omega)]

theorem digitChar_toNat {d : ℕ} (h : d < 10) : (digitChar d).toNat = 48 + d := by
  interval_cases d <;> rfl

theorem isDigitC_digitChar {d : ℕ} (h : d < 10) : isDigitC (digitChar d) = true := by
  interval_cases d <;> decide

theorem natChars_ne_nil (n : ℕ) : natChars n ≠ [] := by
  rw [natChars_eq]
  split <;> simp

theorem natChars_all_digit (n : ℕ) : ∀ c ∈ natChars n, isDigitC c = true := by
  induction n using Nat.strong_induction_on with
  | _ n ih =>
    rw [natChars_eq]
    split
    · intro c hc
      rw [List.mem_singleton] at hc
      subst hc
      exact isDigitC_digitChar (by omega)
    · intro c hc
      rcases List.mem_append.1 hc with h | h
      · exact ih (n / 10) (by omega) c h
      · rw [List.mem_singleton] at h
        subst h
        exact isDigitC_digitChar (by omega)

theorem digitsVal_natChars (n : ℕ) : digitsVal (natChars n) = n := by
  induction n using Nat.strong_induction_on with
  | _ n ih =>
    rw [natChars_eq]
    split
    · simp [digitsVal, digitChar_toNat, *]
    · rw [digitsVal, List.foldl_append]
      have h1 := ih (n / 10) (by omega)
      rw [digitsVal] at h1
      rw [h1]
      simp only [List.foldl_cons, List.foldl_nil]
      rw [digitChar_toNat (by omega)]
      omega

theorem parseDigits_natChars (n : ℕ) : parseDigits (natChars n) = some n := by
  rw [parseDigits, if_pos, digitsVal_natChars]
  exact ⟨natChars_ne_nil n, List.all_eq_true.2 (natChars_all_digit n)⟩

theorem isDigitC_range {c : Char} (h : isDigitC c = true) :
    48 ≤ c.toNat ∧ c.toNat ≤ 57 := by
  simpa [isDigitC] using h

theorem isSpaceC_of_digit {c : Char} (h : isDigitC c = true) : isSpaceC c = false := by
  have h2 := isDigitC_range h
  simp only [isSpaceC, decide_eq_false_iff_not]
  omega

theorem digit_ne_signs {c : Char} (h : isDigitC c = true) : c ≠ '-' ∧ c ≠ '+' := by
  have h2 := isDigitC_range h
  constructor <;> intro hc <;> subst hc <;> simp at h2

theorem digit_not_dot {c : Char} (h : isDigitC c = true) : (c == '.') = false := by
  have h2 := isDigitC_range h
  simp only [beq_eq_false_iff_ne, ne_eq]
  intro hc; subst hc; simp at h2

theorem digit_not_exp {c : Char} (h : isDigitC c = true) :
    (c == 'e' || c == 'E') = false := by
  have h2 := isDigitC_range h
  simp only [Bool.or_eq_false_iff, beq_eq_false_iff_ne, ne_eq]
  constructor <;> intro hc <;> subst hc <;> simp at h2

theorem pyParseIntChars_intChars (i : ℤ) : pyParseIntChars (intChars i) = some i := by
  by_cases h : i < 0
  · rw [intChars, if_pos h]
    show (parseDigits (natChars i.natAbs)).map (fun n => -(n : ℤ)) = some i
    rw [parseDigits_natChars]
    show some (-(i.natAbs : ℤ)) = some i
    congr 1
    omega
  · rw [intChars, if_neg h]
    obtain ⟨c, cs, hcons⟩ := List.exists_cons_of_ne_nil (natChars_ne_nil i.natAbs)
    have hdig : isDigitC c = true := by
      apply natChars_all_digit
      rw [hcons]; exact List.mem_cons_self _ _
    rw [hcons, pyParseIntChars, if_neg (digit_ne_signs hdig).1,
      if_neg (digit_ne_signs hdig).2, ← hcons, parseDigits_natChars]
    show some ((i.natAbs : ℤ)) = some i
    congr 1
    omega

/-! ### Lemmas: float literal printing and parsing -/

theorem breakAt_none {stop : Char → Bool} :
    ∀ {l : List Char}, (∀ c ∈ l, stop c = false) → breakAt stop l = (l, []) := by
  intro l
  induction l with
  | nil => intro _; rfl
  | cons c cs ih =>
    intro h
    rw [breakAt, if_neg (by simp [h c (List.mem_cons_self _ _)])]
    simp [ih (fun x hx => h x (List.mem_cons_of_mem _ hx))]

theorem breakAt_found {stop : Char → Bool} {d : Char} (hd : stop d = true) :
    ∀ {l1 : List Char} (l2 : List Char), (∀ c ∈ l1, stop c = false) →
      breakAt stop (l1 ++ d :: l2) = (l1, d :: l2) := by
  intro l1
  induction l1 with
  | nil => intro l2 _; simp [breakAt, hd]
  | cons c cs ih =>
    intro l2 h
    rw [List.cons_append, breakAt, if_neg (by simp [h c (List.mem_cons_self _ _)])]
    simp [ih l2 (fun x hx => h x (List.mem_cons_of_mem _ hx))]

theorem natChars_lt_ten {b : ℕ} (hb : b < 10) : natChars b = [digitChar b] := by
  rw [natChars_eq, if_pos hb]

theorem parseUnsignedFloatChars_frac (a b : ℕ) (hb : b < 10) :
    parseUnsignedFloatChars (natChars a ++ '.' :: natChars b) =
      some ((a : ℚ) + (b : ℚ) / 10) := by
  have hall : ∀ c ∈ natChars a ++ '.' :: natChars b, (c == 'e' || c == 'E') = false := by
    intro c hc
    rcases List.mem_append.1 hc with h | h
    · exact digit_not_exp (natChars_all_digit a c h)
    · rcases List.mem_cons.1 h with h | h
      · subst h; decide
      · exact digit_not_exp (natChars_all_digit b c h)
  rw [parseUnsignedFloatChars]
  rw [breakAt_none hall]
  show parseMantissaChars (natChars a ++ '.' :: natChars b) = _
  rw [parseMantissaChars]
  rw [breakAt_found (by decide) (natChars b)
    (fun c hc => digit_not_dot (natChars_all_digit a c hc))]
  show (if _ then _ else _) = _
  rw [if_pos ⟨⟨List.all_eq_true.2 (natChars_all_digit a),
        List.all_eq_true.2 (natChars_all_digit b)⟩,
      Or.inl (natChars_ne_nil a)⟩]
  rw [digitsVal_natChars, digitsVal_natChars, natChars_lt_ten hb]
  norm_num

theorem tenthsChars_head_digit_of_nonneg {k : ℤ} (hk : ¬k < 0) :
    tenthsChars k = natChars (k.natAbs / 10) ++ '.' :: natChars (k.natAbs % 10) := by
  rw [tenthsChars, if_neg hk, List.nil_append]

theorem cast_div_add_mod_div_ten (m : ℕ) :
    ((m / 10 : ℕ) : ℚ) + ((m % 10 : ℕ) : ℚ) / 10 = (m : ℚ) / 10 := by
  have h := Nat.div_add_mod m 10
  have h2 : ((10 * (m / 10) + m % 10 : ℕ) : ℚ) = (m : ℚ) := by rw [h]
  push_cast at h2
  linarith

theorem pyParseFloatChars_tenthsChars (k : ℤ) :
    pyParseFloatChars (tenthsChars k) = some ((k : ℚ) / 10) := by
  by_cases h : k < 0
  · rw [tenthsChars, if_pos h]
    show (parseUnsignedFloatChars (natChars (k.natAbs / 10) ++ '.' :: natChars (k.natAbs % 10))).map
      (fun q => -q) = some ((k : ℚ) / 10)
    rw [parseUnsignedFloatChars_frac _ _ (by omega)]
    show some (-(((k.natAbs / 10 : ℕ) : ℚ) + ((k.natAbs % 10 : ℕ) : ℚ) / 10)) = _
    rw [cast_div_add_mod_div_ten]
    congr 1
    have hcast : ((k.natAbs : ℚ)) = -(k : ℚ) := by
      have h2 : (k.natAbs : ℤ) = -k := by omega
      have h3 := congrArg (fun z : ℤ => (z : ℚ)) h2
      simp only [Int.cast_natCast, Int.cast_neg] at h3
      exact h3
    rw [hcast]
    ring
  · rw [tenthsChars_head_digit_of_nonneg h]
    obtain ⟨c, cs, hcons⟩ := List.exists_cons_of_ne_nil (natChars_ne_nil (k.natAbs / 10))
    have hdig : isDigitC c = true := by
      apply natChars_all_digit
      rw [hcons]; exact List.mem_cons_self _ _
    rw [hcons, List.cons_append, pyParseFloatChars, if_neg (digit_ne_signs hdig).1,
      if_neg (digit_ne_signs hdig).2, ← List.cons_append, ← hcons,
      parseUnsignedFloatChars_frac _ _ (by omega), cast_div_add_mod_div_ten]
    congr 1
    have hcast : ((k.natAbs : ℚ)) = (k : ℚ) := by
      have h2 : (k.natAbs : ℤ) = k := by omega
      have h3 := congrArg (fun z : ℤ => (z : ℚ)) h2
      simp only [Int.cast_natCast] at h3
      exact h3
    rw [hcast]

/-! ### Lemmas: token shapes and whitespace splitting -/

theorem natChars_no_space (n : ℕ) : ∀ c ∈ natChars n, isSpaceC c = false :=
  fun c hc => isSpaceC_of_digit (natChars_all_digit n c hc)

theorem intChars_no_space (i : ℤ) : ∀ c ∈ intChars i, isSpaceC c = false := by
  intro c hc
  rw [intChars] at hc
  split at hc
  · rcases List.mem_cons.1 hc with h | h
    · subst h; decide
    · exact natChars_no_space _ c h
  · exact natChars_no_space _ c hc

theorem intChars_ne_nil (i : ℤ) : intChars i ≠ [] := by
  rw [intChars]
  split
  · simp
  · exact natChars_ne_nil _

theorem tenthsChars_no_space (k : ℤ) : ∀ c ∈ tenthsChars k, isSpaceC c = false := by
  intro c hc
  rw [tenthsChars] at hc
  rcases List.mem_append.1 hc with h | h
  · rcases List.mem_append.1 h with h2 | h2
    · split at h2
      · rcases List.mem_singleton.1 h2 with h3
        subst h3; decide
      · simp at h2
    · exact natChars_no_space _ c h2
  · rcases List.mem_cons.1 h with h2 | h2
    · subst h2; decide
    · exact natChars_no_space _ c h2

theorem tenthsChars_ne_nil (k : ℤ) : tenthsChars k ≠ [] := by
  rw [tenthsChars]
  intro h
  rcases List.append_eq_nil.1 h with ⟨h1, h2⟩
  exact absurd h2 (by simp)

theorem splitAll_ne_nil (l : List Char) : splitAll l ≠ [] := by
  induction l with
  | nil => simp [splitAll]
  | cons c cs ih =>
    rw [splitAll]
    split
    · simp
    · split
      · simp
      · simp

theorem splitAll_token {t : List Char} (ht : ∀ c ∈ t, isSpaceC c = false) :
    ∀ l, splitAll (t ++ l) =
      (t ++ (splitAll l).headI) :: (splitAll l).tail := by
  induction t with
  | nil =>
    intro l
    obtain ⟨x, xs, hx⟩ := List.exists_cons_of_ne_nil (splitAll_ne_nil l)
    simp [hx]
  | cons c cs ih =>
    intro l
    rw [List.cons_append, splitAll, if_neg (by simp [ht c (List.mem_cons_self _ _)])]
    rw [ih (fun x hx => ht x (List.mem_cons_of_mem _ hx)) l]
    simp

theorem splitAll_space (l : List Char) : splitAll (' ' :: l) = [] :: splitAll l := by
  rw [splitAll, if_pos (by decide)]

theorem splitOnWs_joinSp :
    ∀ (ts : List (List Char)), (∀ t ∈ ts, t ≠ [] ∧ ∀ c ∈ t, isSpaceC c = false) →
      splitOnWs (joinSp ts) = ts := by
  intro ts
  induction ts with
  | nil => intro _; rfl
  | cons t ts ih =>
    intro h
    cases ts with
    | nil =>
      have ht := h t (List.mem_cons_self _ _)
      have hsp := splitAll_token ht.2 []
      rw [List.append_nil] at hsp
      simp [splitAll] at hsp
      show splitOnWs (joinSp [t]) = [t]
      rw [joinSp, splitOnWs, hsp]
      simp [ht.1]
    | cons t2 ts2 =>
      have ht := h t (List.mem_cons_self _ _)
      have ih2 := ih (fun x hx => h x (List.mem_cons_of_mem _ hx))
      rw [splitOnWs] at ih2
      show splitOnWs (t ++ ' ' :: joinSp (t2 :: ts2)) = t :: t2 :: ts2
      rw [splitOnWs, splitAll_token ht.2 (' ' :: joinSp (t2 :: ts2)), splitAll_space]
      simp only [List.headI_cons, List.tail_cons, List.append_nil]
      rw [List.filter_cons, if_pos (by simp [ht.1]), ih2]

/-! ### Lemmas: half-even rounding -/

theorem floor_le_rhe (x : ℚ) : ⌊x⌋ ≤ rhe x := by
  rw [rhe]
  split
  · exact le_refl _
  · split
    · omega
    · split <;> omega

theorem le_rhe_of_le {k : ℤ} {x : ℚ} (h : (k : ℚ) ≤ x) : k ≤ rhe x :=
  le_trans (Int.le_floor.2 h) (floor_le_rhe x)

theorem rhe_le_of_le {k : ℤ} {x : ℚ} (h : x ≤ (k : ℚ)) : rhe x ≤ k := by
  have hfl : ⌊x⌋ ≤ k := by
    calc ⌊x⌋ ≤ ⌊(k : ℚ)⌋ := Int.floor_le_floor h
    _ = k := Int.floor_intCast k
  rw [rhe]
  split
  · exact hfl
  · have hgt : (⌊x⌋ : ℚ) < x := by
      by_contra hc
      have hge : x ≤ (⌊x⌋ : ℚ) := not_lt.1 hc
      have h0 : x - (⌊x⌋ : ℚ) ≤ 0 := by linarith
      simp only [not_lt] at *
      linarith
    have hlt : ⌊x⌋ < k := by
      by_contra hc
      have : ⌊x⌋ = k := le_antisymm hfl (not_lt.1 hc)
      subst this
      have : x ≤ (⌊x⌋ : ℚ) := h
      linarith
    split
    · omega
    · split <;> omega

theorem rhe_intCast (k : ℤ) : rhe ((k : ℚ)) = k := by
  rw [rhe]
  have h1 : ⌊(k : ℚ)⌋ = k := Int.floor_intCast k
  rw [if_pos]
  · exact h1
  · rw [h1]
    norm_num

theorem round1_tenths_mul (k : ℤ) : round1 ((k : ℚ) / 10) = (k : ℚ) / 10 := by
  rw [round1]
  have h : (10 : ℚ) * ((k : ℚ) / 10) = (k : ℚ) := by ring
  rw [h, rhe_intCast]

theorem le_round1_of_le {k : ℤ} {x : ℚ} (h : (k : ℚ) / 10 ≤ x) :
    (k : ℚ) / 10 ≤ round1 x := by
  rw [round1]
  have h1 : (k : ℚ) ≤ 10 * x := by linarith
  have h2 : k ≤ rhe (10 * x) := le_rhe_of_le h1
  have h3 : (k : ℚ) ≤ ((rhe (10 * x) : ℤ) : ℚ) := by exact_mod_cast h2
  linarith

theorem round1_le_of_le {k : ℤ} {x : ℚ} (h : x ≤ (k : ℚ) / 10) :
    round1 x ≤ (k : ℚ) / 10 := by
  rw [round1]
  have h1 : 10 * x ≤ (k : ℚ) := by linarith
  have h2 : rhe (10 * x) ≤ k := rhe_le_of_le h1
  have h3 : ((rhe (10 * x) : ℤ) : ℚ) ≤ (k : ℚ) := by exact_mod_cast h2
  linarith

/-! ### Lemmas: decoding and the callback handler -/

theorem decodeFields_inv {fields : List (List Char)} {st : ControlState}
    (h : decodeFields fields = some st) :
    ∃ u yd sd ed md gd ad, fields = [u, yd, sd, ed, md, gd, ad] ∧
      pyParseIntChars u = some st.user_id ∧ pyParseFloatChars sd = some st.start ∧
      pyParseFloatChars ed = some st.«end» ∧ String.mk yd = st.youtube_id ∧
      String.mk md = st.start_end_mode ∧ String.mk gd = st.int_frac_mode ∧
      String.mk ad = st.action := by
  unfold decodeFields at h
  split at h
  next u yd sd ed md gd ad =>
    split at h
    next uid sq eq2 hu hs he =>
      rw [Option.some.injEq] at h
      subst h
      exact ⟨u, yd, sd, ed, md, gd, ad, rfl, hu, hs, he, rfl, rfl, rfl, rfl⟩
    next => exact absurd h (by simp)
  next => exact absurd h (by simp)

theorem handler_of_decode {data : String} {st : ControlState}
    (oracle : ℕ → AttemptOutcome) (h : decode data = some st) :
    inline_kb_answer_callback_handler st.user_id data oracle =
      .answerOk :: handlerBody ⟨st.youtube_id, st.start, st.«end»⟩
        st.start_end_mode st.int_frac_mode st.action st.user_id oracle := by
  rw [decode] at h
  obtain ⟨u, yd, sd, ed, md, gd, ad, hf, hu, hs, he, hy, hm, hg, ha⟩ := decodeFields_inv h
  rw [inline_kb_answer_callback_handler, hf]
  simp [hu, hs, he, hy, hm, hg, ha]

theorem handler_wrong_owner {data : String} {st : ControlState} {actor : ℤ}
    (oracle : ℕ → AttemptOutcome) (h : decode data = some st)
    (hne : actor ≠ st.user_id) :
    inline_kb_answer_callback_handler actor data oracle =
      [.answerText "You shall not press!"] := by
  rw [decode] at h
  obtain ⟨u, yd, sd, ed, md, gd, ad, hf, hu, hs, he, hy, hm, hg, ha⟩ := decodeFields_inv h
  rw [inline_kb_answer_callback_handler, hf]
  simp [hu, hne]

/-! ### Lemmas: the format-fallback loop -/

theorem download_file_loop_success (oracle : ℕ → AttemptOutcome) (b : String) :
    ∀ (fs : List String) (i k : ℕ), k < fs.length →
      (∀ j, j < k → ∃ e, oracle (i + j) = .failure e ∧ skippable e = true) →
      oracle (i + k) = .success b →
      download_file_loop oracle i fs = .ok (some b) := by
  intro fs
  induction fs with
  | nil => intro i k hk _ _; simp at hk
  | cons f rest ih =>
    intro i k hk hbefore hsucc
    cases k with
    | zero =>
      rw [download_file_loop]
      simp only [Nat.add_zero] at hsucc
      rw [hsucc]
    | succ k2 =>
      obtain ⟨e, he, hes⟩ := hbefore 0 (by omega)
      simp only [Nat.add_zero] at he
      cases rest with
      | nil => simp at hk
      | cons r0 rs =>
        rw [download_file_loop, he]
        show (if skippable e = true then download_file_loop oracle (i + 1) (r0 :: rs)
              else DownloadResult.raised e) = DownloadResult.ok (some b)
        rw [if_pos hes]
        apply ih (i + 1) k2 (by simp at hk ⊢; omega)
        · intro j hj
          obtain ⟨e2, he2, he2s⟩ := hbefore (j + 1) (by omega)
          refine ⟨e2, ?_, he2s⟩
          rw [show i + 1 + j = i + (j + 1) by omega]
          exact he2
        · rw [show i + 1 + k2 = i + (k2 + 1) by omega]
          exact hsucc

theorem download_file_loop_generic (oracle : ℕ → AttemptOutcome) (e : PyError) :
    ∀ (fs : List String) (i k : ℕ), k < fs.length →
      (∀ j, j < k → ∃ e2, oracle (i + j) = .failure e2 ∧ skippable e2 = true) →
      oracle (i + k) = .failure e → skippable e = false →
      download_file_loop oracle i fs = .raised e := by
  intro fs
  induction fs with
  | nil => intro i k hk _ _ _; simp at hk
  | cons f rest ih =>
    intro i k hk hbefore hfail hskip
    cases k with
    | zero =>
      simp only [Nat.add_zero] at hfail
      cases rest with
      | nil =>
        rw [download_file_loop, hfail]
        show (if skippable e = true then DownloadResult.raised e
              else DownloadResult.raised e) = DownloadResult.raised e
        split <;> rfl
      | cons r0 rs =>
        rw [download_file_loop, hfail]
        show (if skippable e = true then download_file_loop oracle (i + 1) (r0 :: rs)
              else DownloadResult.raised e) = DownloadResult.raised e
        rw [if_neg (by simp [hskip])]
    | succ k2 =>
      obtain ⟨e2, he2, he2s⟩ := hbefore 0 (by omega)
      simp only [Nat.add_zero] at he2
      cases rest with
      | nil => simp at hk
      | cons r0 rs =>
        rw [download_file_loop, he2]
        show (if skippable e2 = true then download_file_loop oracle (i + 1) (r0 :: rs)
              else DownloadResult.raised e2) = DownloadResult.raised e
        rw [if_pos he2s]
        apply ih (i + 1) k2 (by simp at hk ⊢; omega)
        · intro j hj
          obtain ⟨e3, he3, he3s⟩ := hbefore (j + 1) (by omega)
          refine ⟨e3, ?_, he3s⟩
          rw [show i + 1 + j = i + (j + 1) by omega]
          exact he3
        · rw [show i + 1 + k2 = i + (k2 + 1) by omega]
          exact hfail
        · exact hskip

theorem download_file_loop_all_fail (oracle : ℕ → AttemptOutcome) (es : ℕ → PyError) :
    ∀ (fs : List String) (i : ℕ), fs ≠ [] →
      (∀ j, j < fs.length → oracle (i + j) = .failure (es (i + j)) ∧ skippable (es (i + j)) = true) →
      download_file_loop oracle i fs = .raised (es (i + fs.length - 1)) := by
  intro fs
  induction fs with
  | nil => intro i h _; exact absurd rfl h
  | cons f rest ih =>
    intro i _ hall
    obtain ⟨hf, hfs⟩ := hall 0 (by simp)
    simp only [Nat.add_zero] at hf hfs
    cases rest with
    | nil =>
      rw [download_file_loop, hf]
      show (if skippable (es i) = true then DownloadResult.raised (es i)
            else DownloadResult.raised (es i)) = DownloadResult.raised (es (i + 1 - 1))
      simp
    | cons r0 rs =>
      rw [download_file_loop, hf]
      show (if skippable (es i) = true then download_file_loop oracle (i + 1) (r0 :: rs)
            else DownloadResult.raised (es i)) = DownloadResult.raised (es (i + (r0 :: rs).length + 1 - 1))
      rw [if_pos hfs]
      have hres := ih (i + 1) (by simp)
        (fun j hj => by
          have h2 := hall (j + 1) (by simp at hj ⊢; omega)
          rw [show i + (j + 1) = i + 1 + j by omega] at h2
          exact h2)
      rw [hres]
      congr 1
      congr 1
      simp only [List.length_cons]
      omega

/-! ### Claim theorems -/

/-- Claim C3: for every decoded callback token whose `owner_id` differs from
the acting principal, the handler issues only the rejection answer
"You shall not press!" — no caption, media or markup edit and no send is
performed, so no range is changed, no render is triggered, and the original
control surface is left unchanged; the owner check precedes any mutation. -/
theorem claim_owner_mismatch_rejected (data : String) (st : ControlState)
    (actor : ℤ) (oracle : ℕ → AttemptOutcome)
    (hdec : decode data = some st) (hne : actor ≠ st.user_id) :
    inline_kb_answer_callback_handler actor data oracle =
      [.answerText "You shall not press!"] :=
  handler_wrong_owner oracle hdec hne

/-- Claim C3 witness: a concrete mismatched-owner token is rejected. -/
theorem claim_owner_mismatch_rejected_witness :
    inline_kb_answer_callback_handler 1 "2 abc 0.0 1.0 end int video"
      (fun _ => .success "f") = [.answerText "You shall not press!"] :=
  claim_owner_mismatch_rejected _ ⟨2, "abc", 0, 1, "end", "int", "video"⟩ 1 _
    (by with_unfolding_all decide) (by decide)

/-- Claim C10: decoding performs no range validation: every seven-field
token whose owner field parses as an integer and whose start and end fields
parse as floats is decoded to exactly those values — even when start > end
or start < 0 — and the owner-matching handler proceeds into the action
dispatch on the reconstructed request; the invariant 0 ≤ start ≤ end is not
re-established at the decode boundary. -/
theorem claim_decode_no_range_validation (data : String)
    (u yd sd ed md gd ad : List Char) (uid : ℤ) (sq eq2 : ℚ)
    (oracle : ℕ → AttemptOutcome)
    (hsplit : splitOnWs data.data = [u, yd, sd, ed, md, gd, ad])
    (hu : pyParseIntChars u = some uid)
    (hs : pyParseFloatChars sd = some sq)
    (he : pyParseFloatChars ed = some eq2)
    (_hbad : sq < 0 ∨ eq2 < sq) :
    decode data = some ⟨uid, String.mk yd, sq, eq2, String.mk md, String.mk gd, String.mk ad⟩ ∧
    inline_kb_answer_callback_handler uid data oracle =
      .answerOk :: handlerBody ⟨String.mk yd, sq, eq2⟩ (String.mk md) (String.mk gd)
        (String.mk ad) uid oracle := by
  have hdec : decode data =
      some ⟨uid, String.mk yd, sq, eq2, String.mk md, String.mk gd, String.mk ad⟩ := by
    rw [decode, hsplit]
    simp [decodeFields, hu, hs, he]
  exact ⟨hdec, handler_of_decode oracle hdec⟩

/-- Claim C10 witness: the token `1 abc 5.0 1.0 end int sw_m` has
start 5.0 > end 1.0 yet decodes and is processed. -/
theorem claim_decode_no_range_validation_witness :
    decode "1 abc 5.0 1.0 end int sw_m" = some ⟨1, "abc", 5, 1, "end", "int", "sw_m"⟩ ∧
    inline_kb_answer_callback_handler 1 "1 abc 5.0 1.0 end int sw_m"
        (fun _ => .success "f") =
      .answerOk :: handlerBody ⟨"abc", 5, 1⟩ "end" "int" "sw_m" 1 (fun _ => .success "f") :=
  claim_decode_no_range_validation "1 abc 5.0 1.0 end int sw_m"
    "1".data "abc".data "5.0".data "1.0".data "end".data "int".data "sw_m".data
    1 5 1 (fun _ => .success "f")
    (by with_unfolding_all decide) (by with_unfolding_all decide)
    (by with_unfolding_all decide) (by with_unfolding_all decide)
    (Or.inr (by norm_num))

/-- Claim C5: an authorized adjustment whose clamped-and-rounded result
leaves both start and end unchanged is a no-op: the handler only answers the
callback and signals no caption or keyboard edit. -/
theorem claim_adjust_noop (data : String) (st : ControlState) (δ : ℚ)
    (oracle : ℕ → AttemptOutcome)
    (hdec : decode data = some st)
    (h1 : st.action ≠ "video") (h2 : st.action ≠ "audio") (h3 : st.action ≠ "preview")
    (h4 : st.action ≠ "sw_m") (h5 : st.action ≠ "sw_i")
    (hparse : pyParseFloatChars st.action.data = some δ)
    (hst : (adjust ⟨st.youtube_id, st.start, st.«end»⟩ st.start_end_mode δ).start = st.start)
    (hen : (adjust ⟨st.youtube_id, st.start, st.«end»⟩ st.start_end_mode δ).«end» = st.«end») :
    inline_kb_answer_callback_handler st.user_id data oracle = [.answerOk] := by
  rw [handler_of_decode oracle hdec]
  have hb : handlerBody ⟨st.youtube_id, st.start, st.«end»⟩ st.start_end_mode
      st.int_frac_mode st.action st.user_id oracle = [] := by
    simp [handlerBody, h1, h2, h3, h4, h5, hparse, hst, hen]
  rw [hb]

/-- Claim C5 witness: with start = end = 0.0, focus on end, delta -5, the
clamp returns end to 0.0 and the handler performs no re-render. -/
theorem claim_adjust_noop_witness :
    inline_kb_answer_callback_handler 1 "1 abc 0.0 0.0 end int -5"
      (fun _ => .success "f") = [.answerOk] :=
  claim_adjust_noop "1 abc 0.0 0.0 end int -5" ⟨1, "abc", 0, 0, "end", "int", "-5"⟩
    (-5) (fun _ => .success "f")
    (by with_unfolding_all decide)
    (by decide) (by decide) (by decide) (by decide) (by decide)
    (by with_unfolding_all decide)
    (by with_unfolding_all decide) (by with_unfolding_all decide)

theorem decodeFields_wrong_arity {l : List (List Char)} (h : l.length ≠ 7) :
    decodeFields l = none := by
  rcases l with _ | ⟨a1, _ | ⟨a2, _ | ⟨a3, _ | ⟨a4, _ | ⟨a5, _ | ⟨a6, _ | ⟨a7, _ | ⟨a8, rest⟩⟩⟩⟩⟩⟩⟩⟩
  · rfl
  · rfl
  · rfl
  · rfl
  · rfl
  · rfl
  · rfl
  · simp at h
  · rfl

/-- Claim C6: malformed callback payloads are rejected at the decode
boundary and never produce an unhandled fault: (1) a payload whose
whitespace-token count is not seven decodes to `none`; (2) a seven-field
payload whose owner field fails `int()` or whose start or end field fails
`float()` decodes to `none`; (3) an authorized payload whose action token is
not a recognized action and does not parse as a float delta is answered and
then dropped with no further effect — the `ValueError` is absorbed by the
handler's own failure boundary, and no mutation is applied. -/
theorem claim_decode_malformed :
    (∀ data : String, (splitOnWs data.data).length ≠ 7 → decode data = none) ∧
    (∀ (data : String) (u yd sd ed md gd ad : List Char),
      splitOnWs data.data = [u, yd, sd, ed, md, gd, ad] →
      pyParseIntChars u = none ∨ pyParseFloatChars sd = none ∨ pyParseFloatChars ed = none →
      decode data = none) ∧
    (∀ (data : String) (st : ControlState) (oracle : ℕ → AttemptOutcome),
      decode data = some st →
      st.action ≠ "video" → st.action ≠ "audio" → st.action ≠ "preview" →
      st.action ≠ "sw_m" → st.action ≠ "sw_i" →
      pyParseFloatChars st.action.data = none →
      inline_kb_answer_callback_handler st.user_id data oracle = [.answerOk]) := by
  refine ⟨?_, ?_, ?_⟩
  · intro data h
    rw [decode]
    exact decodeFields_wrong_arity h
  · intro data u yd sd ed md gd ad hsplit hbad
    rw [decode, hsplit]
    rcases hbad with hb | hb | hb
    · simp [decodeFields, hb]
    · cases hpu : pyParseIntChars u <;> simp [decodeFields, hpu, hb]
    · cases hpu : pyParseIntChars u <;> cases hps : pyParseFloatChars sd <;>
        simp [decodeFields, hpu, hps, hb]
  · intro data st oracle hdec h1 h2 h3 h4 h5 hparse
    rw [handler_of_decode oracle hdec]
    have hb : handlerBody ⟨st.youtube_id, st.start, st.«end»⟩ st.start_end_mode
        st.int_frac_mode st.action st.user_id oracle = [] := by
      simp [handlerBody, h1, h2, h3, h4, h5, hparse]
    rw [hb]

/-- Claim C6 witness: a three-field payload, a payload with a non-numeric
owner field, and an authorized payload with the unparseable action `bogus`. -/
theorem claim_decode_malformed_witness :
    decode "1 abc 0.0" = none ∧
    decode "x abc 0.0 1.0 end int video" = none ∧
    inline_kb_answer_callback_handler 5 "5 abc 0.0 1.0 end int bogus"
      (fun _ => .success "f") = [.answerOk] :=
  ⟨claim_decode_malformed.1 "1 abc 0.0" (by with_unfolding_all decide),
    claim_decode_malformed.2.1 "x abc 0.0 1.0 end int video"
      "x".data "abc".data "0.0".data "1.0".data "end".data "int".data "video".data
      (by with_unfolding_all decide) (Or.inl (by with_unfolding_all decide)),
    claim_decode_malformed.2.2 "5 abc 0.0 1.0 end int bogus"
      ⟨5, "abc", 0, 1, "end", "int", "bogus"⟩ (fun _ => .success "f")
      (by with_unfolding_all decide) (by decide) (by decide) (by decide) (by decide)
      (by decide) (by with_unfolding_all decide)⟩

/-- Claim C1 counterexample: the empty string is a whitespace-free source
identifier, yet the state (owner 1, source "", start 0.0, end 0.0, focus
end, granularity int, action video) does not round-trip: its encoding
collapses to six whitespace-delimited fields and decodes to `none`. -/
theorem claim_codec_roundtrip_counterexample :
    decode (encodeCallbackData 1 ⟨"", 0, 0⟩ "end" "int" "video") = none ∧
    decode (encodeCallbackData 1 ⟨"", 0, 0⟩ "end" "int" "video") ≠
      some ⟨1, "", 0, 0, "end", "int", "video"⟩ := by
  with_unfolding_all decide

/-- Claim C1 (amended): for every control state with integer owner id,
nonempty whitespace-free source identifier, one-decimal-place non-negative
start ≤ end, focus in start/end, granularity in int/frac, and a nonempty
whitespace-free action token, decoding the encoded callback token yields
exactly the original state. -/
theorem claim_codec_roundtrip (uid : ℤ) (y m g a : String) (sk ek : ℤ)
    (hy1 : y.data ≠ []) (hy2 : ∀ c ∈ y.data, isSpaceC c = false)
    (_hsk : 0 ≤ sk) (_hse : sk ≤ ek)
    (hm : m = "start" ∨ m = "end") (hg : g = "int" ∨ g = "frac")
    (ha1 : a.data ≠ []) (ha2 : ∀ c ∈ a.data, isSpaceC c = false) :
    decode (encodeCallbackData uid ⟨y, (sk : ℚ) / 10, (ek : ℚ) / 10⟩ m g a) =
      some ⟨uid, y, (sk : ℚ) / 10, (ek : ℚ) / 10, m, g, a⟩ := by
  have hr1 : pyRound1Chars ((sk : ℚ) / 10) = tenthsChars sk := by
    rw [pyRound1Chars]
    congr 1
    rw [show (10 : ℚ) * ((sk : ℚ) / 10) = (sk : ℚ) by ring, rhe_intCast]
  have hr2 : pyRound1Chars ((ek : ℚ) / 10) = tenthsChars ek := by
    rw [pyRound1Chars]
    congr 1
    rw [show (10 : ℚ) * ((ek : ℚ) / 10) = (ek : ℚ) by ring, rhe_intCast]
  have htokens : ∀ t ∈ [intChars uid, y.data, tenthsChars sk, tenthsChars ek,
      m.data, g.data, a.data], t ≠ [] ∧ ∀ c ∈ t, isSpaceC c = false := by
    intro t ht
    simp only [List.mem_cons, List.not_mem_nil, or_false] at ht
    rcases ht with rfl | rfl | rfl | rfl | rfl | rfl | rfl
    · exact ⟨intChars_ne_nil uid, intChars_no_space uid⟩
    · exact ⟨hy1, hy2⟩
    · exact ⟨tenthsChars_ne_nil sk, tenthsChars_no_space sk⟩
    · exact ⟨tenthsChars_ne_nil ek, tenthsChars_no_space ek⟩
    · rcases hm with rfl | rfl <;> exact ⟨by decide, by decide⟩
    · rcases hg with rfl | rfl <;> exact ⟨by decide, by decide⟩
    · exact ⟨ha1, ha2⟩
  rw [decode, encodeCallbackData]
  show decodeFields (splitOnWs (joinSp [intChars uid, y.data,
    pyRound1Chars ((sk : ℚ) / 10), pyRound1Chars ((ek : ℚ) / 10),
    m.data, g.data, a.data])) = _
  rw [hr1, hr2, splitOnWs_joinSp _ htokens]
  simp [decodeFields, pyParseIntChars_intChars, pyParseFloatChars_tenthsChars]

/-- Claim C1 witness: a concrete valid state round-trips. -/
theorem claim_codec_roundtrip_witness :
    decode (encodeCallbackData 7 ⟨"dQw4w9WgXcQ", ((0 : ℤ) : ℚ) / 10,
        ((100 : ℤ) : ℚ) / 10⟩ "end" "int" "video") =
      some ⟨7, "dQw4w9WgXcQ", ((0 : ℤ) : ℚ) / 10, ((100 : ℤ) : ℚ) / 10,
        "end", "int", "video"⟩ :=
  claim_codec_roundtrip 7 "dQw4w9WgXcQ" "end" "int" "video" 0 100
    (by decide) (by decide) (by decide) (by decide)
    (Or.inr rfl) (Or.inl rfl) (by decide) (by decide)

/-- Claim C2: for every media class, `download_file` tries the configured
candidates strictly in the configured order: (1) when every earlier
candidate fails with a format-unusable error (`FFRuntimeError` or
`DownloadError`) and candidate k succeeds, its bytes are returned; (2) a
failure outside the format-unusable class propagates at once, even when
later candidates remain; (3) when every candidate fails format-unusable,
the error raised on exhaustion is the last underlying cause. -/
theorem claim_download_fallback (t : String) (oracle : ℕ → AttemptOutcome) :
    (∀ (k : ℕ) (b : String), k < (FORMATS_BY_TYPE t).length →
      (∀ j, j < k → ∃ e, oracle j = .failure e ∧ skippable e = true) →
      oracle k = .success b → download_file oracle t = .ok (some b)) ∧
    (∀ (k : ℕ) (e : PyError), k < (FORMATS_BY_TYPE t).length →
      (∀ j, j < k → ∃ e2, oracle j = .failure e2 ∧ skippable e2 = true) →
      oracle k = .failure e → skippable e = false → download_file oracle t = .raised e) ∧
    (∀ es : ℕ → PyError, FORMATS_BY_TYPE t ≠ [] →
      (∀ j, j < (FORMATS_BY_TYPE t).length →
        oracle j = .failure (es j) ∧ skippable (es j) = true) →
      download_file oracle t = .raised (es ((FORMATS_BY_TYPE t).length - 1))) := by
  refine ⟨?_, ?_, ?_⟩
  · intro k b hk hbefore hsucc
    rw [download_file]
    apply download_file_loop_success oracle b _ 0 k hk
    · intro j hj
      simpa using hbefore j hj
    · simpa using hsucc
  · intro k e hk hbefore hfail hskip
    rw [download_file]
    apply download_file_loop_generic oracle e _ 0 k hk
    · intro j hj
      simpa using hbefore j hj
    · simpa using hfail
    · exact hskip
  · intro es hne hall
    rw [download_file]
    have h := download_file_loop_all_fail oracle es _ 0 hne
      (fun j hj => by simpa using hall j hj)
    simpa using h

/-- Claim C2 witness: both video candidates fail with `DownloadError`; the
second (last) cause is the one raised. -/
theorem claim_download_fallback_witness :
    download_file (fun j => .failure (.downloadError (if j = 0 then "a" else "b")))
      "video" = .raised (.downloadError "b") := by
  have h := (claim_download_fallback "video"
      (fun j => .failure (.downloadError (if j = 0 then "a" else "b")))).2.2
    (fun j => .downloadError (if j = 0 then "a" else "b"))
    (by decide) (by decide)
  simpa [FORMATS_BY_TYPE] using h

/-- Claim C4 counterexample: with start = end = 0.14 (a value decode accepts
unchanged, C10) and delta 0 on the END focus, the clamp keeps end at 0.14
but the subsequent rounding moves it to 0.1, strictly below start — the
claimed invariant end2 ≥ start fails for states off the one-decimal grid. -/
theorem claim_adjust_clamp_counterexample :
    (adjust ⟨"a", 7 / 50, 7 / 50⟩ "end" 0).start = 7 / 50 ∧
    (adjust ⟨"a", 7 / 50, 7 / 50⟩ "end" 0).«end» < 7 / 50 := by
  with_unfolding_all decide

/-- Claim C4 (amended): for every state whose start and end are one-decimal
multiples with 0 ≤ start ≤ end — the values the encoder produces — and
every rational delta: on END focus, start is unchanged, the new end is
clamped to ≥ start and is again a one-decimal multiple, and 0 ≤ start ≤ end
is preserved; on START focus, end is unchanged and the new start is clamped
into [0, end] and rounded to a one-decimal multiple. -/
theorem claim_adjust_clamp (y : String) (sk ek : ℤ) (δ : ℚ)
    (h0 : 0 ≤ sk) (hse : sk ≤ ek) :
    ((adjust ⟨y, (sk : ℚ) / 10, (ek : ℚ) / 10⟩ "end" δ).start = (sk : ℚ) / 10 ∧
     (sk : ℚ) / 10 ≤ (adjust ⟨y, (sk : ℚ) / 10, (ek : ℚ) / 10⟩ "end" δ).«end» ∧
     (∃ k : ℤ, (adjust ⟨y, (sk : ℚ) / 10, (ek : ℚ) / 10⟩ "end" δ).«end» = (k : ℚ) / 10) ∧
     0 ≤ (adjust ⟨y, (sk : ℚ) / 10, (ek : ℚ) / 10⟩ "end" δ).start) ∧
    ((adjust ⟨y, (sk : ℚ) / 10, (ek : ℚ) / 10⟩ "start" δ).«end» = (ek : ℚ) / 10 ∧
     0 ≤ (adjust ⟨y, (sk : ℚ) / 10, (ek : ℚ) / 10⟩ "start" δ).start ∧
     (adjust ⟨y, (sk : ℚ) / 10, (ek : ℚ) / 10⟩ "start" δ).start ≤ (ek : ℚ) / 10 ∧
     (∃ k : ℤ, (adjust ⟨y, (sk : ℚ) / 10, (ek : ℚ) / 10⟩ "start" δ).start = (k : ℚ) / 10)) := by
  have hs0 : (0 : ℚ) ≤ (sk : ℚ) / 10 := by
    have h : (0 : ℚ) ≤ (sk : ℚ) := by exact_mod_cast h0
    linarith
  have he0 : (0 : ℚ) ≤ (ek : ℚ) / 10 := by
    have h : (0 : ℚ) ≤ (ek : ℚ) := by exact_mod_cast le_trans h0 hse
    linarith
  have hend : adjust ⟨y, (sk : ℚ) / 10, (ek : ℚ) / 10⟩ "end" δ =
      ⟨y, (sk : ℚ) / 10, round1 (max ((sk : ℚ) / 10) ((ek : ℚ) / 10 + δ))⟩ := by
    rw [adjust, if_pos rfl]
  have hstart : adjust ⟨y, (sk : ℚ) / 10, (ek : ℚ) / 10⟩ "start" δ =
      ⟨y, round1 (min (max ((sk : ℚ) / 10 + δ) 0) ((ek : ℚ) / 10)), (ek : ℚ) / 10⟩ := by
    rw [adjust, if_neg (by decide), if_pos rfl]
  constructor
  · rw [hend]
    refine ⟨rfl, le_round1_of_le (le_max_left _ _),
      ⟨rhe (10 * max ((sk : ℚ) / 10) ((ek : ℚ) / 10 + δ)), rfl⟩, hs0⟩
  · rw [hstart]
    refine ⟨rfl, ?_, round1_le_of_le (min_le_right _ _),
      ⟨rhe (10 * min (max ((sk : ℚ) / 10 + δ) 0) ((ek : ℚ) / 10)), rfl⟩⟩
    have hmin : ((0 : ℤ) : ℚ) / 10 ≤ min (max ((sk : ℚ) / 10 + δ) 0) ((ek : ℚ) / 10) := by
      have h1 : (0 : ℚ) ≤ max ((sk : ℚ) / 10 + δ) 0 := le_max_right _ _
      have h2 : ((0 : ℤ) : ℚ) / 10 = 0 := by norm_num
      rw [h2]
      exact le_min h1 he0
    have h := le_round1_of_le hmin
    have h2 : ((0 : ℤ) : ℚ) / 10 = 0 := by norm_num
    rw [h2] at h
    exact h

/-- Claim C4 witness: a concrete on-grid state with a fractional delta. -/
theorem claim_adjust_clamp_witness :
    ((adjust ⟨"a", ((0 : ℤ) : ℚ) / 10, ((100 : ℤ) : ℚ) / 10⟩ "end" (-3 / 10)).start =
        ((0 : ℤ) : ℚ) / 10 ∧
     ((0 : ℤ) : ℚ) / 10 ≤ (adjust ⟨"a", ((0 : ℤ) : ℚ) / 10, ((100 : ℤ) : ℚ) / 10⟩ "end"
        (-3 / 10)).«end» ∧
     (∃ k : ℤ, (adjust ⟨"a", ((0 : ℤ) : ℚ) / 10, ((100 : ℤ) : ℚ) / 10⟩ "end"
        (-3 / 10)).«end» = (k : ℚ) / 10) ∧
     0 ≤ (adjust ⟨"a", ((0 : ℤ) : ℚ) / 10, ((100 : ℤ) : ℚ) / 10⟩ "end" (-3 / 10)).start) ∧
    ((adjust ⟨"a", ((0 : ℤ) : ℚ) / 10, ((100 : ℤ) : ℚ) / 10⟩ "start" (-3 / 10)).«end» =
        ((100 : ℤ) : ℚ) / 10 ∧
     0 ≤ (adjust ⟨"a", ((0 : ℤ) : ℚ) / 10, ((100 : ℤ) : ℚ) / 10⟩ "start" (-3 / 10)).start ∧
     (adjust ⟨"a", ((0 : ℤ) : ℚ) / 10, ((100 : ℤ) : ℚ) / 10⟩ "start" (-3 / 10)).start ≤
        ((100 : ℤ) : ℚ) / 10 ∧
     (∃ k : ℤ, (adjust ⟨"a", ((0 : ℤ) : ℚ) / 10, ((100 : ℤ) : ℚ) / 10⟩ "start"
        (-3 / 10)).start = (k : ℚ) / 10)) :=
  claim_adjust_clamp "a" 0 100 (-3 / 10) (by decide) (by decide)

/-- Claim C7 counterexample: a preview render whose single candidate format
fails with a `DownloadError` produces a caption edit that shows the failure
reason but replaces the reply markup with a single URL button labelled
"Error" — a markup with no callback button at all, so the interactive
control surface is not preserved. -/
theorem claim_render_failure_counterexample :
    inline_kb_answer_callback_handler 1 "1 abc 0.0 10.0 end int preview"
        (fun _ => .failure (.downloadError "boom")) =
      [.answerOk, .editMessageCaption [[Button.url "Error" "https://youtu.be/abc?t=0"]]
        ("https://youtu.be/abc?t=0" ++ "\n\n" ++ "boom")] ∧
    hasCbButton [[Button.url "Error" "https://youtu.be/abc?t=0"]] = false := by
  with_unfolding_all decide

/-- Claim C7 (amended): when a render action (preview, video or audio)
exhausts every candidate format and the last underlying cause is a
`DownloadError` (a `YoutubeDLError`), the failure reason is displayed in the
caption in place of the artifact, but the reply markup is replaced by a
single non-interactive URL button labelled "Error": the adjustment keyboard
is not preserved.  (A non-`YoutubeDLError` cause, such as `FFRuntimeError`
from the transcoder, would bypass this display entirely.) -/
theorem claim_render_failure (data : String) (st : ControlState)
    (oracle : ℕ → AttemptOutcome) (es : ℕ → PyError) (msg : String)
    (hdec : decode data = some st)
    (hact : st.action = "preview" ∨ st.action = "video" ∨ st.action = "audio")
    (hall : ∀ j, j < (FORMATS_BY_TYPE st.action).length →
      oracle j = .failure (es j) ∧ skippable (es j) = true)
    (hlast : es ((FORMATS_BY_TYPE st.action).length - 1) = .downloadError msg) :
    inline_kb_answer_callback_handler st.user_id data oracle =
      .answerOk ::
        ((if st.action = "video" ∨ st.action = "audio" then
            [Effect.editMessageCaption
              [[Button.url "Загружаем..."
                (request_to_start_timestamp_url ⟨st.youtube_id, st.start, st.«end»⟩)]]
              (request_to_start_timestamp_url ⟨st.youtube_id, st.start, st.«end»⟩)]
          else []) ++
         [Effect.editMessageCaption
            [[Button.url "Error"
              (request_to_start_timestamp_url ⟨st.youtube_id, st.start, st.«end»⟩)]]
            (request_to_start_timestamp_url ⟨st.youtube_id, st.start, st.«end»⟩ ++
              "\n\n" ++ msg)]) ∧
    hasCbButton [[Button.url "Error"
      (request_to_start_timestamp_url ⟨st.youtube_id, st.start, st.«end»⟩)]] = false := by
  have hfs : FORMATS_BY_TYPE st.action ≠ [] := by
    rcases hact with h | h | h <;> simp [FORMATS_BY_TYPE, h]
  have hd : download_file oracle st.action = .raised (.downloadError msg) := by
    rw [download_file]
    have h := download_file_loop_all_fail oracle es _ 0 hfs
      (fun j hj => by simpa using hall j hj)
    rw [h]
    simp only [Nat.zero_add, hlast]
  refine ⟨?_, rfl⟩
  rw [handler_of_decode oracle hdec]
  rcases hact with h | h | h <;> rw [h] at hd <;>
    simp [handlerBody, h, hd, isYoutubeDLError, errStr]

/-- Claim C7 witness: a video render whose two candidates both fail with
`DownloadError`. -/
theorem claim_render_failure_witness :
    inline_kb_answer_callback_handler 9 "9 abc 0.0 10.0 end int video"
        (fun _ => .failure (.downloadError "boom")) =
      .answerOk ::
        ((if ("video" : String) = "video" ∨ ("video" : String) = "audio" then
            [Effect.editMessageCaption
              [[Button.url "Загружаем..."
                (request_to_start_timestamp_url ⟨"abc", 0, 10⟩)]]
              (request_to_start_timestamp_url ⟨"abc", 0, 10⟩)]
          else []) ++
         [Effect.editMessageCaption
            [[Button.url "Error" (request_to_start_timestamp_url ⟨"abc", 0, 10⟩)]]
            (request_to_start_timestamp_url ⟨"abc", 0, 10⟩ ++ "\n\n" ++ "boom")]) ∧
    hasCbButton [[Button.url "Error" (request_to_start_timestamp_url ⟨"abc", 0, 10⟩)]] =
      false :=
  claim_render_failure "9 abc 0.0 10.0 end int video"
    ⟨9, "abc", 0, 10, "end", "int", "video"⟩
    (fun _ => .failure (.downloadError "boom")) (fun _ => .downloadError "boom") "boom"
    (by with_unfolding_all decide) (Or.inr (Or.inl rfl)) (by decide) rfl

/-- Claim C8 counterexample: a run of the clip pipeline whose re-encode
stage fails leaves the temporary extracted file on disk — an intermediate
file survives a failed run. -/
theorem claim_clip_cleanup_counterexample :
    (download_clip "webm" "video" "100" "101" "bytes" true false true []).2 =
      ["100.temp.webm"] ∧
    (download_clip "webm" "video" "100" "101" "bytes" true false true []).2 ≠ [] := by
  with_unfolding_all decide

/-- Claim C8 (amended): on a successful run `download_clip` removes both the
temporary extracted file and the encoded output file, restoring the file
system; but on a failed run the files created before the failing stage
survive: a re-encode failure leaves the extracted temp file, and a failure
reading the output leaves both files. -/
theorem claim_clip_cleanup (source_ext t1 t2 contents : String) (fs0 : List String)
    (hne : t1 ++ ".temp." ++ source_ext ≠ t2 ++ ".mp4") :
    (download_clip source_ext "video" t1 t2 contents true true true fs0).2 = fs0 ∧
    (download_clip source_ext "video" t1 t2 contents true false true fs0).2 =
      (t1 ++ ".temp." ++ source_ext) :: fs0 ∧
    (download_clip source_ext "video" t1 t2 contents true true false fs0).2 =
      (t2 ++ ".mp4") :: (t1 ++ ".temp." ++ source_ext) :: fs0 := by
  have hout : t2 ++ "." ++ "mp4" = t2 ++ ".mp4" := by
    cases t2 with
    | mk d => exact congrArg String.mk (List.append_assoc d ['.'] ['m', 'p', '4'])
  refine ⟨?_, rfl, ?_⟩
  · show (((t2 ++ "." ++ "mp4") :: (t1 ++ ".temp." ++ source_ext) :: fs0).erase
        (t1 ++ ".temp." ++ source_ext)).erase (t2 ++ "." ++ "mp4") = fs0
    have hb1 : ((t2 ++ "." ++ "mp4") == (t1 ++ ".temp." ++ source_ext)) = false := by
      rw [hout]
      exact beq_eq_false_iff_ne.2 (Ne.symm hne)
    rw [List.erase_cons, if_neg (by simp [hb1]), List.erase_cons_head,
      List.erase_cons_head]
  · rw [← hout]
    rfl

/-- Claim C8 witness: a concrete run with distinct path stamps. -/
theorem claim_clip_cleanup_witness :
    (download_clip "webm" "video" "100" "101" "b" true true true []).2 = [] ∧
    (download_clip "webm" "video" "100" "101" "b" true false true []).2 =
      ["100.temp.webm"] ∧
    (download_clip "webm" "video" "100" "101" "b" true true false []).2 =
      ["101.mp4", "100.temp.webm"] :=
  claim_clip_cleanup "webm" "100" "101" "b" [] (by decide)

/-- Claim C9: the multi-attempt parse helper returns the first attempt that
succeeds with a value, regardless of earlier validation errors or earlier
empty results and of anything after it; when every attempt raises a
validation error it re-raises the last one; and when no attempt succeeds but
at least one attempt merely found nothing, it returns nothing rather than an
error — distinguishing "nothing matched" from "all attempts were invalid". -/
theorem claim_first_some :
    (∀ (pre post : List (Except String (Option Request))) (r : Request),
      (∀ x ∈ pre, isSomeOk x = false) →
      first_some (pre ++ .ok (some r) :: post) = .ok (some r)) ∧
    (∀ (ms : List String) (m : String),
      first_some (ms.map (fun s => .error s) ++ [.error m]) = .error m) ∧
    (∀ l, (∀ x ∈ l, isSomeOk x = false) → (∃ x ∈ l, isErrE x = false) →
      first_some l = .ok none) := by
  refine ⟨?_, ?_, ?_⟩
  · intro pre post r hpre
    rw [first_some]
    have hfind : (pre ++ .ok (some r) :: post).find? isSomeOk = some (.ok (some r)) := by
      induction pre with
      | nil => simp [List.find?, isSomeOk]
      | cons x xs ih =>
        have hx : isSomeOk x = false := hpre x (List.mem_cons_self _ _)
        rw [List.cons_append, List.find?, hx]
        exact ih (fun z hz => hpre z (List.mem_cons_of_mem _ hz))
    rw [hfind]
  · intro ms m
    rw [first_some]
    have hfind : ((ms.map (fun s => Except.error s) ++ [Except.error m]).find? isSomeOk) = none := by
      apply List.find?_eq_none.2
      intro x hx
      rcases List.mem_append.1 hx with h | h
      · obtain ⟨s, _, rfl⟩ := List.mem_map.1 h
        simp [isSomeOk]
      · rw [List.mem_singleton.1 h]
        simp [isSomeOk]
    rw [hfind]
    have hcond : (!(ms.map (fun s => Except.error s) ++
          [(Except.error m : Except String (Option Request))]).isEmpty &&
        (ms.map (fun s => Except.error s) ++
          [(Except.error m : Except String (Option Request))]).all isErrE) = true := by
      rw [Bool.and_eq_true]
      constructor
      · simp
      · rw [List.all_eq_true]
        intro x hx
        rcases List.mem_append.1 hx with h | h
        · obtain ⟨s, _, rfl⟩ := List.mem_map.1 h
          simp [isErrE]
        · rw [List.mem_singleton.1 h]
          simp [isErrE]
    rw [if_pos hcond, List.getLast?_concat]
  · intro l h1 h2
    rw [first_some]
    have hfind : l.find? isSomeOk = none :=
      List.find?_eq_none.2 (fun x hx => by simp [h1 x hx])
    rw [hfind]
    have hcond : (!l.isEmpty && l.all isErrE) = false := by
      obtain ⟨x, hx, hxe⟩ := h2
      cases hall : l.all isErrE with
      | false => simp
      | true => exact absurd ((List.all_eq_true.1 hall) x hx) (by simp [hxe])
    rw [if_neg (by simp [hcond])]

/-- Claim C9 witness: an early validation error does not preempt a later
success. -/
theorem claim_first_some_witness :
    first_some [.error "e1", .ok (some ⟨"a", 0, 1⟩), .error "e2"] =
      .ok (some ⟨"a", 0, 1⟩) :=
  claim_first_some.1 [.error "e1"] [.error "e2"] ⟨"a", 0, 1⟩ (by decide)

end Main
